import Mathlib

/-!
Verification of the Symantex tag-driven rewrite dispatch core.

This file shallowly embeds the registry (`symantex/registry.py`), the
combined evaluation-entry dispatcher (`symantex/_patches.py`) and the rule
mixin hooks (`symantex/mixins/derivatives.py`, `symantex/mixins/integrals.py`,
`symantex/mixins/associative.py`) and proves or refutes the frozen claims
about them.  Host-engine primitives (sympy expression construction,
differentiation and integration of sub-expressions) are external
collaborators per section 6 of the specification; they are modelled at the
boundary as total executable functions whose exact values the settled
claims do not depend on.
-/

namespace Symantex

/-- Shallow embedding of the host expression nodes the rule hooks touch:
symbols, integer constants, custom operator applications `F(args)`, sympy
`Add` nodes, and the unevaluated `Derivative(e, x)` / `Integral(e, x)`
entry-point nodes. -/
inductive Expr where
  | sym : String → Expr
  | intE : Int → Expr
  | app : String → List Expr → Expr
  | addE : List Expr → Expr
  | deriv : Expr → String → Expr
  | integ : Expr → String → Expr

/-- Modelled boundary of the host engine's derivative primitive
`arg.diff(sym)` (out of scope per section 6 of the spec): exact on symbols
and integer constants, and returns an unevaluated derivative node on
anything deeper.  The settled claims only ever differentiate symbols and
constants. -/
def diffE : Expr → String → Expr
  | .sym s, v => if s = v then .intE 1 else .intE 0
  | .intE _, _ => .intE 0
  | e, v => .deriv e v

/-- Modelled boundary of the host engine's antiderivative primitive
`Integral(arg, sym).doit()` (out of scope per section 6 of the spec).  The
settled claims depend only on it being a total function that does not
return an operator-application node for symbol arguments. -/
def integE (e : Expr) (v : String) : Expr :=
  match e with
  | .sym s => if s = v then .app "Pow2Half" [.sym s] else .app "MulBy" [.sym s, .sym v]
  | .intE n => .app "MulBy" [.intE n, .sym v]
  | _ => .integ e v

/-- Modelled boundary of sympy's `Add(*terms, evaluate=True)` used by the
hooks: an empty sum is 0 and a one-term sum collapses to the term;
canonical reordering and like-term collection are not modelled because no
settled claim depends on them. -/
def addMk (ts : List Expr) : Expr :=
  match ts with
  | [] => .intE 0
  | [t] => t
  | _ => .addE ts

/-- `LinearDerivativeMixin._eval_derivative` (symantex/mixins/derivatives.py,
lines 27-35): if arity is not exactly 1 return the unevaluated
`Derivative(self, sym)`, else apply the operator to the differentiated
argument. -/
def linearDerivative_evalDerivative (f : String) (args : List Expr) (v : String) : Expr :=
  match args with
  | [a] => .app f [diffE a v]
  | _ => .deriv (.app f args) v

/-- `ProductRuleMixin._eval_derivative` (symantex/mixins/derivatives.py,
lines 56-65): if arity is not exactly 2 return the unevaluated
`Derivative(self, sym)`, else `f(u', v) + f(u, v')`. -/
def productRule_evalDerivative (f : String) (args : List Expr) (v : String) : Expr :=
  match args with
  | [u, w] => addMk [.app f [diffE u v, w], .app f [u, diffE w v]]
  | _ => .deriv (.app f args) v

/-- The term list built by the loop in
`PullDerivativeChainMixin._eval_derivative` (symantex/mixins/derivatives.py,
lines 90-95): one term per argument position, with exactly that argument
replaced by its derivative.  `pre` is the list of arguments already
passed. -/
def chainTerms (f v : String) (pre : List Expr) : List Expr → List Expr
  | [] => []
  | a :: rest => .app f (pre ++ diffE a v :: rest) :: chainTerms f v (pre ++ [a]) rest

/-- `PullDerivativeChainMixin._eval_derivative` as shipped in the live
package (symantex/mixins/derivatives.py, lines 86-96): fall back to an
unevaluated derivative only when there are no arguments, otherwise sum the
one-hole terms.  Note this copy has no all-derivatives-zero special case
and no arity bound, unlike the duplicate in
src/symantex/mixins/derivatives.py of the repository. -/
def pullDerivativeChain_evalDerivative (f : String) (args : List Expr) (v : String) : Expr :=
  match args with
  | [] => .deriv (.app f []) v
  | _ => addMk (chainTerms f v [] args)

/-- `PullIntegralMixin._eval_integral` (symantex/mixins/integrals.py,
lines 26-34): with no arguments return the unevaluated `Integral(self, sym)`,
otherwise replace every argument by its evaluated antiderivative and
rebuild the operator. -/
def pullIntegral_evalIntegral (f : String) (args : List Expr) (v : String) : Expr :=
  match args with
  | [] => .integ (.app f []) v
  | _ => .app f (args.map (fun a => integE a v))

/-- `DistributeIntegralMixin._eval_integral` as shipped in the live package
(symantex/mixins/integrals.py, lines 56-61): its body is identical to
`pull_integral`, guarding only against an empty argument list — there is no
arity-at-least-2 guard, unlike the duplicate in
src/symantex/mixins/integrals.py of the repository. -/
def distributeIntegral_evalIntegral (f : String) (args : List Expr) (v : String) : Expr :=
  match args with
  | [] => .integ (.app f []) v
  | _ => .app f (args.map (fun a => integE a v))

/-- Instances of a binary operator class built with the `associative` tag,
together with atoms standing for arbitrary expressions that are not
instances of that operator (the `isinstance(args[0], cls)` test in
`AssociativeMixin.eval` is a constructor test here). -/
inductive FExpr where
  | atom : Nat → FExpr
  | F : FExpr → FExpr → FExpr
deriving DecidableEq

/-- `AssociativeMixin.eval` (symantex/mixins/associative.py, lines 17-24)
composed with the operator's constructor: when the first operand is itself
an instance of the same operator, re-associate rightward
`f(f(l, r), b) = f(l, f(r, b))` recursively; otherwise build the plain
node. -/
def mkF : FExpr → FExpr → FExpr
  | .F l r, b => mkF l (mkF r b)
  | a, b => .F a b

/-- Whether an expression is an instance of the operator class. -/
def isFnode : FExpr → Bool
  | .F _ _ => true
  | _ => false

/-- The spine of the operator is fully right-nested: no operator node
appears as the first argument of another operator node. -/
def rightNested : FExpr → Bool
  | .atom _ => true
  | .F l r => !isFnode l && rightNested r

/-!
The combined dispatcher of `symantex/_patches.py`.  The node under
evaluation, the heads it exposes and the rule hooks are host objects; they
are modelled by the structures below, with an arbitrary result type `R`
standing for host expressions.  A hook invocation
`getattr(head2.func, hook_name)(head2, *hook_args)` is a call into rule
module code, so its result is modelled as a lookup `Head.hook hookName`
returning the value that call would produce.
-/

/-- Outcome of evaluating a callable head extractor `head_attr(self)`
(symantex/_patches.py, lines 58-63 and 90): it can return a head, return
the Python value None, or raise. -/
inductive ExtractRes (H : Type) where
  | ok : H → ExtractRes H
  | isNone : ExtractRes H
  | err : ExtractRes H

/-- A head, i.e. the operator sub-expression whose tags are consulted
(always a sympy Basic, which has a `func`).  `instKeys` models the
instance attribute `_property_keys` on the head, `funcInstKeys` the
attribute `_property_keys` on `head.func`, `funcClassKeys` the attribute
`property_keys` on `head.func`; a `none` field means the attribute is
absent.  `hook hookName` is the result of invoking
`getattr(head.func, hookName)` on this head with the entry point's hook
arguments, or `none` when the attribute is absent. -/
structure Head (R : Type) where
  instKeys : Option (List String)
  funcInstKeys : Option (List String)
  funcClassKeys : Option (List String)
  hook : String → Option R

/-- The node under evaluation.  `attrs` models string attribute lookup of a
head on the node (`self.expr`, `self.function`, ...; these attributes,
when present, hold sub-expressions and are never None).  `selfVal` is the
node itself as a host expression, and `native` the value the captured
native (pre-patch) method returns on this node and arguments. -/
structure DNode (R : Type) where
  attrs : String → Option (Head R)
  selfVal : R
  native : R

/-- A head extractor: either a string attribute name on the node or a
callable on the node (symantex/_patches.py, lines 10-15). -/
inductive HeadAttr (R : Type) where
  | str : String → HeadAttr R
  | fn : (DNode R → ExtractRes (Head R)) → HeadAttr R

/-- One registered patch spec for a fixed entry point
`(SymClass, method_name)`, as stored in `_METHOD_PATCHES`:
`(property_key, hook_name, head_attr)`. -/
structure DSpec (R : Type) where
  key : String
  hookName : String
  headAttr : HeadAttr R

/-- Step 1 of `patched` (symantex/_patches.py, lines 50-63): walk the specs
and return the first head successfully extracted.  A missing string
attribute or a raising callable moves on to the next spec; a callable
returning None breaks the loop with no head, which like an exhausted loop
leads to the native-method path. -/
def extractHead {R : Type} (self : DNode R) : List (DSpec R) → Option (Head R)
  | [] => none
  | s :: rest =>
    match s.headAttr with
    | .str n =>
      match self.attrs n with
      | some h => some h
      | none => extractHead self rest
    | .fn g =>
      match g self with
      | .ok h => some h
      | .isNone => none
      | .err => extractHead self rest

/-- Step 3 of `patched` (symantex/_patches.py, lines 69-79): concatenate
the instance-level keys, the mixin keys on the class, and the
operator-class keys, each defaulting to the empty list when absent. -/
def collectKeys {R : Type} (h : Head R) : List String :=
  h.instKeys.getD [] ++ h.funcInstKeys.getD [] ++ h.funcClassKeys.getD []

/-- Result of one dispatcher invocation: a returned host value or an
uncaught exception propagating to the caller. -/
inductive DResult (R : Type) where
  | val : R → DResult R
  | raised : DResult R

/-- Re-extraction of the head by a matching spec inside the walk
(symantex/_patches.py, lines 86-90): the string case is
`getattr(self, head_attr, None)` and the callable case is `head_attr(self)`
with exceptions propagating. -/
def specHead2 {R : Type} (self : DNode R) (s : DSpec R) : ExtractRes (Head R) :=
  match s.headAttr with
  | .str n =>
    match self.attrs n with
    | some h => .ok h
    | none => .isNone
  | .fn g => g self

/-- Step 4 of `patched` (symantex/_patches.py, lines 82-124): walk the
specs in registration order; for a spec whose key is among the collected
keys, re-extract the head, skip the spec when the hook attribute is absent
(line 94, `continue`), otherwise return the hook's result.  A re-extraction
yielding None or raising makes the dispatcher raise (`head2.func` on None,
or the propagated exception).  The stashing of the original method on the
head's operator (lines 96-101) is a side effect with swallowed failure and
does not affect the returned value. -/
def walkSpecs {R : Type} (self : DNode R) (keys : List String) :
    List (DSpec R) → Option (DResult R)
  | [] => none
  | s :: rest =>
    if s.key ∈ keys then
      match specHead2 self s with
      | .ok h2 =>
        match h2.hook s.hookName with
        | some r => some (.val r)
        | none => walkSpecs self keys rest
      | .isNone => some .raised
      | .err => some .raised
    else walkSpecs self keys rest

/-- The body of the combined wrapper `patched` built by
`_make_combined_wrapper` (symantex/_patches.py, lines 49-132), closing
over the entry point's method at build time as `originalMethod`:
extract a head or call the original; dispatch on the first matching spec
with a hook; with no match return the node itself when the head's
operator class has a `property_keys` attribute, else call the original. -/
def patched {R : Type} (specs : List (DSpec R))
    (originalMethod : DNode R → DResult R) (self : DNode R) : DResult R :=
  match extractHead self specs with
  | none => originalMethod self
  | some head =>
    match walkSpecs self (collectKeys head) specs with
    | some r => r
    | none =>
      if head.funcClassKeys.isSome then .val self.selfVal
      else originalMethod self

/-- The method installed on the entry point slot: the native pre-patch
method, or a combined wrapper closing over the specs it was built from and
the method that occupied the slot when it was built. -/
inductive Method (R : Type) where
  | native : Method R
  | wrapper : List (DSpec R) → Method R → Method R

/-- Run the installed method on a node.  The native method returns the
node's native evaluation; a wrapper runs `patched` with the method it
closed over as the original. -/
def runMethod {R : Type} : Method R → DNode R → DResult R
  | .native => fun self => .val self.native
  | .wrapper specs orig => patched specs (runMethod orig)

/-- Association-list lookup, the embedding of dictionary indexing on
string keys. -/
def alookup {α : Type} : List (String × α) → String → Option α
  | [], _ => none
  | (k, v) :: rest, key => if key = k then some v else alookup rest key

/-- `PropertyRegistry.store_original_method` (symantex/registry.py,
lines 105-114): store the original method for a key only if nothing is
stored yet. -/
def storeOriginal {R : Type} (os : List (String × Method R)) (key : String)
    (m : Method R) : List (String × Method R) :=
  if (alookup os key).isSome then os else os ++ [(key, m)]

/-- The mutable state behind one entry point `(SymClass, method_name)`:
the method currently installed on the slot and the registry's originals
table. -/
structure PatchState (R : Type) where
  method : Method R
  originals : List (String × Method R)

/-- `apply_all_patches` restricted to one entry point
(symantex/_patches.py, lines 137-152): read the current method from the
slot, store it as the original for every spec key (a no-op for keys that
already have one), then install a combined wrapper built from the specs
and the method read from the slot. -/
def applyAllPatches {R : Type} (specs : List (DSpec R)) (st : PatchState R) :
    PatchState R :=
  { method := .wrapper specs st.method,
    originals := specs.foldl (fun os s => storeOriginal os s.key st.method) st.originals }

/-!
The registry's `register` operation and the construction interceptor
(`symantex/registry.py`).
-/

/-- The spec's error taxonomy names for the exceptions `register` raises:
`TypeError` for a module that is not a `PropertyMixin` subclass
(InvalidModule) and `KeyError` for an already registered key
(DuplicateTag). -/
inductive RegError where
  | invalidModule : RegError
  | duplicateTag : RegError
deriving DecidableEq

/-- An object produced by a construction path: its `_property_keys`
attribute (absent when `none`) and a payload standing for the result of
the underlying base construction. -/
structure NewObj where
  keys : Option (List String)
  base : Nat
deriving DecidableEq

/-- A construction path (`__new__`), abstracting the constructor arguments
into a single number. -/
def NewFn : Type := Nat → NewObj

/-- `wrapped_new` built inside `PropertyRegistry.register`
(symantex/registry.py, lines 68-80): call the original construction, then
append this key to the object's existing `_property_keys` list, or create
the list when the attribute is absent. -/
def wrappedNew (key : String) (origNew : NewFn) : NewFn :=
  fun a =>
    let obj := origNew a
    match obj.keys with
    | some existing => { obj with keys := some (existing ++ [key]) }
    | none => { obj with keys := some [key] }

/-- Modelled from the spec (section 4.3) for the part of the composition
machinery that lives in the missing factory module: the construction path
of a value composed from several registered rule modules applies each
module's registration-time wrapper in turn over the base construction.
Each individual wrapper is `wrappedNew`, embedded from
symantex/registry.py. -/
def wrapChain (ks : List String) (f : NewFn) : NewFn :=
  ks.foldl (fun g k => wrappedNew k g) f

/-- A rule module class as `register` sees it: whether it is a
`PropertyMixin` subclass, and its construction path. -/
structure MixinCls where
  name : String
  conforming : Bool
  newFn : NewFn

/-- The registry tables `register` touches: `_registry` (key to
description; the stored mixin reference is carried by the returned class),
`_patch_registry` (key to patch-spec lists, here kept abstract as opaque
tokens), and `_originals` (key to optionally captured original method,
abstracted to a name). -/
structure RegState where
  reg : List (String × String)
  patchReg : List (String × List String)
  originals : List (String × Option String)

/-- `PropertyRegistry.register` (symantex/registry.py, lines 44-80): raise
`TypeError` (InvalidModule) when the class is not a `PropertyMixin`
subclass, then `KeyError` (DuplicateTag) when the key is already present
— both before any table or the class's construction path is mutated — and
otherwise record the key, initialize its patch list and empty original
slot, and wrap the class's construction path. -/
def registerR (st : RegState) (key desc : String) (m : MixinCls) :
    Except RegError (RegState × MixinCls) :=
  if !m.conforming then .error .invalidModule
  else if (alookup st.reg key).isSome then .error .duplicateTag
  else .ok
    ({ reg := st.reg ++ [(key, desc)],
       patchReg := st.patchReg ++ [(key, [])],
       originals := st.originals ++ [(key, none)] },
     { m with newFn := wrappedNew key m.newFn })

/-!
Concrete host-object instances used by the closed counterexamples and
witnesses.  The result type of host evaluation is instantiated with `Nat`.
-/

/-- A base construction path producing an object without a
`_property_keys` attribute. -/
def c2Base : NewFn := fun n => { keys := none, base := n }

/-- Head used by the C1 witness: carries the registered tag "a" on the
instance and answers the hook "hk" with 42. -/
def c1Head : Head Nat :=
  { instKeys := some ["a"], funcInstKeys := none, funcClassKeys := none,
    hook := fun n => if n = "hk" then some 42 else none }

/-- Node used by the C1 witness: the head lives on the attribute "expr". -/
def c1Self : DNode Nat :=
  { attrs := fun n => if n = "expr" then some c1Head else none,
    selfVal := 1, native := 2 }

/-- A spec registered before the matching one, with a non-matching tag. -/
def c1SpecP : DSpec Nat := { key := "p", hookName := "hk", headAttr := .str "expr" }

/-- The first spec whose tag is carried by the head. -/
def c1SpecA : DSpec Nat := { key := "a", hookName := "hk", headAttr := .str "expr" }

/-- A spec registered after the matching one; C1 says it is never
consulted. -/
def c1SpecZ : DSpec Nat := { key := "z", hookName := "hk", headAttr := .str "zzz" }

/-- Head used by the C5 counterexample: carries both registered tags but
only provides the hook of the second spec, answering 7. -/
def c5Head : Head Nat :=
  { instKeys := some ["a", "b"], funcInstKeys := none, funcClassKeys := none,
    hook := fun n => if n = "hb" then some 7 else none }

/-- Node used by the C5 counterexample. -/
def c5Self : DNode Nat :=
  { attrs := fun n => if n = "expr" then some c5Head else none,
    selfVal := 1, native := 2 }

/-- First spec of the C5 counterexample: its tag matches but its hook
"ha" is absent from the head's class. -/
def c5SpecA : DSpec Nat := { key := "a", hookName := "ha", headAttr := .str "expr" }

/-- Second spec of the C5 counterexample: its tag matches and its hook
"hb" is present. -/
def c5SpecB : DSpec Nat := { key := "b", hookName := "hb", headAttr := .str "expr" }

/-- Head used by the C8 counterexample: it carries tag machinery (an
instance-level `_property_keys` list), but its operator class has no
`property_keys` attribute. -/
def c8Head : Head Nat :=
  { instKeys := some ["k"], funcInstKeys := none, funcClassKeys := none,
    hook := fun _ => none }

/-- Node used by the C8 counterexample, with distinct unevaluated-self and
native results so the two fall-through paths are distinguishable. -/
def c8Self : DNode Nat :=
  { attrs := fun n => if n = "expr" then some c8Head else none,
    selfVal := 1, native := 2 }

/-- The only registered spec in the C8 counterexample; its tag "other" is
not carried by the head. -/
def c8Spec : DSpec Nat := { key := "other", hookName := "hk", headAttr := .str "expr" }

/-- Spec list used by the C4 counterexample and witness. -/
def c4Specs : List (DSpec Nat) := [c1SpecA]

/-- Entry-point state before any patch is installed. -/
def c4St0 : PatchState Nat := { method := .native, originals := [] }

/-- Registry state in which the key "dup" is already registered. -/
def c10St : RegState :=
  { reg := [("dup", "d")], patchReg := [("dup", [])], originals := [("dup", none)] }

/-- A module that does not satisfy the RuleModule contract (not a
`PropertyMixin` subclass). -/
def c10Bad : MixinCls := { name := "Bad", conforming := false, newFn := c2Base }

/-- A conforming module. -/
def c10Good : MixinCls := { name := "Good", conforming := true, newFn := c2Base }

/-!
Theorems.
-/

/-- Unfolding of the wrapped construction path's key list: the wrapper
appends its own key to whatever keys the original construction produced. -/
theorem wrappedNew_keys (key : String) (f : NewFn) (a : Nat) :
    (wrappedNew key f a).keys = some ((f a).keys.getD [] ++ [key]) := by
  simp only [wrappedNew]
  cases h : (f a).keys <;> simp [h]

/-- The wrapper preserves the result of the underlying base
construction. -/
theorem wrappedNew_base (key : String) (f : NewFn) (a : Nat) :
    (wrappedNew key f a).base = (f a).base := by
  simp only [wrappedNew]
  cases h : (f a).keys <;> simp [h]

/-- One step of the wrapper chain. -/
theorem wrapChain_cons (k : String) (ks : List String) (f : NewFn) :
    wrapChain (k :: ks) f = wrapChain ks (wrappedNew k f) := rfl

/-- Composite description of a chain of construction wrappers: base
construction preserved, keys accumulated in order, and the key attribute
present as soon as the chain is nonempty. -/
theorem wrapChain_spec (ks : List String) (f : NewFn) (a : Nat) :
    (wrapChain ks f a).base = (f a).base ∧
    (wrapChain ks f a).keys.getD [] = (f a).keys.getD [] ++ ks ∧
    (ks ≠ [] → (wrapChain ks f a).keys.isSome = true) := by
  induction ks generalizing f with
  | nil => simp [wrapChain]
  | cons k ks ih =>
    have h := ih (wrappedNew k f)
    refine ⟨?_, ?_, ?_⟩
    · rw [wrapChain_cons, h.1, wrappedNew_base]
    · rw [wrapChain_cons, h.2.1, wrappedNew_keys]
      simp
    · intro _
      rw [wrapChain_cons]
      cases ks with
      | nil =>
        show (wrappedNew k f a).keys.isSome = true
        rw [wrappedNew_keys]
        rfl
      | cons k2 ks2 => exact h.2.2 (by simp)

/-- C2: a value constructed through the construction path of one or more
registered rule-module mixins carries the tag of every mixin in the chain
in its property-key list: each registration-time wrapper appends its own
key to the keys already present, never overwriting them, and the
underlying base construction still executes. -/
theorem claim_C2_tags_accumulate (ks : List String) (f : NewFn) (a : Nat) (h : ks ≠ []) :
    (wrapChain ks f a).keys = some ((f a).keys.getD [] ++ ks) ∧
    (wrapChain ks f a).base = (f a).base ∧
    ∀ k ∈ ks, k ∈ (wrapChain ks f a).keys.getD [] := by
  obtain ⟨hbase, hkeys, hsome⟩ := wrapChain_spec ks f a
  refine ⟨?_, hbase, ?_⟩
  · have hs := hsome h
    cases hk : (wrapChain ks f a).keys with
    | none => rw [hk] at hs; simp at hs
    | some l =>
      rw [hk] at hkeys
      simp only [Option.getD_some] at hkeys
      rw [hkeys]
  · intro k hkmem
    rw [hkeys]
    exact List.mem_append_right _ hkmem

/-- C2 witness: two mixins composed over a bare base construction. -/
theorem claim_C2_witness :
    (wrapChain ["lin", "prod"] c2Base 5).keys =
      some ((c2Base 5).keys.getD [] ++ ["lin", "prod"]) ∧
    (wrapChain ["lin", "prod"] c2Base 5).base = (c2Base 5).base ∧
    ∀ k ∈ (["lin", "prod"] : List String),
      k ∈ (wrapChain ["lin", "prod"] c2Base 5).keys.getD [] :=
  claim_C2_tags_accumulate ["lin", "prod"] c2Base 5 (by decide)

/-- C3: when the structural precondition of the linear-derivative rule
(exactly one argument) or of the product-rule (exactly two arguments)
fails, the hook returns the reconstructed unevaluated Derivative node with
the same operator and arguments, and being a total function it raises
nothing. -/
theorem claim_C3_wrong_arity_unevaluated (f : String) (args : List Expr) (v : String) :
    (args.length ≠ 1 →
      linearDerivative_evalDerivative f args v = Expr.deriv (Expr.app f args) v) ∧
    (args.length ≠ 2 →
      productRule_evalDerivative f args v = Expr.deriv (Expr.app f args) v) := by
  constructor
  · intro h
    match args with
    | [] => rfl
    | [a] => exact absurd rfl h
    | a :: b :: t => rfl
  · intro h
    match args with
    | [] => rfl
    | [a] => rfl
    | [a, b] => exact absurd rfl h
    | a :: b :: c :: t => rfl

/-- C3 witness: a two-argument call of the unary linear rule and a
one-argument call of the binary product rule both fall back. -/
theorem claim_C3_witness :
    linearDerivative_evalDerivative "M" [Expr.sym "a", Expr.sym "b"] "a" =
      Expr.deriv (Expr.app "M" [Expr.sym "a", Expr.sym "b"]) "a" ∧
    productRule_evalDerivative "N" [Expr.sym "a"] "b" =
      Expr.deriv (Expr.app "N" [Expr.sym "a"]) "b" :=
  ⟨(claim_C3_wrong_arity_unevaluated "M" [Expr.sym "a", Expr.sym "b"] "a").1 (by decide),
   (claim_C3_wrong_arity_unevaluated "N" [Expr.sym "a"] "b").2 (by decide)⟩

/-- C6 (the live code evaluated at the failing input): differentiating the
chain-rule-tagged G(a, b) with respect to y, on which neither argument
depends, the shipped hook returns the two-term sum G(0, b) + G(a, 0) and
not the single node G(0, 0) claimed by the spec and implemented, with the
all-zero special case, by the repository's duplicate copy in
src/symantex/mixins/derivatives.py. -/
theorem claim_C6_failing_eval :
    pullDerivativeChain_evalDerivative "G" [Expr.sym "a", Expr.sym "b"] "y" =
      Expr.addE [Expr.app "G" [Expr.intE 0, Expr.sym "b"],
                 Expr.app "G" [Expr.sym "a", Expr.intE 0]] ∧
    Expr.addE [Expr.app "G" [Expr.intE 0, Expr.sym "b"],
               Expr.app "G" [Expr.sym "a", Expr.intE 0]] ≠
      Expr.app "G" [Expr.intE 0, Expr.intE 0] :=
  ⟨rfl, fun h => Expr.noConfusion h⟩

/-- C7 (the live code evaluated at the failing input): integrating the
distribute-integral-tagged one-argument Q(a) with respect to a, the
shipped hook distributes — it returns the operator application
Q(Integral(a, a).doit()) and not an unevaluated Integral node, although
the module's own self-test asserts the result is an Integral instance and
the repository's duplicate copy in src/symantex/mixins/integrals.py
implements the arity-at-least-2 guard. -/
theorem claim_C7_failing_eval :
    distributeIntegral_evalIntegral "Q" [Expr.sym "a"] "a" =
      Expr.app "Q" [integE (Expr.sym "a") "a"] ∧
    ∀ (e : Expr) (v : String),
      Expr.app "Q" [integE (Expr.sym "a") "a"] ≠ Expr.integ e v :=
  ⟨rfl, fun _ _ h => Expr.noConfusion h⟩

/-- The re-associating construction of an associative-tagged operator is
associative as a function. -/
theorem mkF_assoc (a b c : FExpr) : mkF (mkF a b) c = mkF a (mkF b c) := by
  induction a generalizing b c with
  | atom n => simp [mkF]
  | F l r ihl ihr =>
    simp only [mkF]
    rw [ihl, ihr]

/-- The re-associating construction yields a right-nested spine whenever
its second operand has one. -/
theorem mkF_rightNested (a : FExpr) : ∀ b : FExpr, rightNested b = true →
    rightNested (mkF a b) = true := by
  induction a with
  | atom n =>
    intro b hb
    simp [mkF, rightNested, isFnode, hb]
  | F l r ihl ihr =>
    intro b hb
    simp only [mkF]
    exact ihl _ (ihr _ hb)

/-- C9: for an operator tagged associative, construction satisfies
F(F(a,b),c) = F(a,F(b,c)), the four-deep left nesting fully
right-associates to F(a,F(b,F(c,d))), and every construction whose second
operand is right-nested yields a right-nested spine, so deep left-nestings
flatten to right-nested form. -/
theorem claim_C9_associative_construction :
    (∀ a b c : FExpr, mkF (mkF a b) c = mkF a (mkF b c)) ∧
    (∀ a b c d : FExpr, mkF (mkF (mkF a b) c) d = mkF a (mkF b (mkF c d))) ∧
    (∀ a b : FExpr, rightNested b = true → rightNested (mkF a b) = true) := by
  refine ⟨mkF_assoc, ?_, mkF_rightNested⟩
  intro a b c d
  simp [mkF_assoc]

/-- C9 witness: associativity at atoms, and flattening of a raw left-nested
three-deep first operand. -/
theorem claim_C9_witness :
    mkF (mkF (FExpr.atom 1) (FExpr.atom 2)) (FExpr.atom 3) =
      mkF (FExpr.atom 1) (mkF (FExpr.atom 2) (FExpr.atom 3)) ∧
    rightNested (mkF (FExpr.F (FExpr.F (FExpr.atom 1) (FExpr.atom 2)) (FExpr.atom 3))
      (FExpr.atom 4)) = true :=
  ⟨claim_C9_associative_construction.1 _ _ _,
   claim_C9_associative_construction.2.2 _ _ (by decide)⟩

/-- C10 (counterexample): re-registering an existing key with a module
that does not conform to the RuleModule contract raises InvalidModule
(TypeError), not DuplicateTag (KeyError), because the conformance check
precedes the duplicate-key check. -/
theorem claim_C10_counterexample :
    registerR c10St "dup" "again" c10Bad = .error RegError.invalidModule ∧
    RegError.invalidModule ≠ RegError.duplicateTag :=
  ⟨rfl, by decide⟩

/-- C10 (amended): re-registering an existing key fails — with DuplicateTag
for a conforming module and with InvalidModule for a non-conforming one —
and the raise happens before any mutation, so the failed call yields no
updated registry tables and no rewrapped construction path. -/
theorem claim_C10_duplicate_register (st : RegState) (key desc : String) (m : MixinCls)
    (hdup : (alookup st.reg key).isSome = true) :
    registerR st key desc m =
      .error (if m.conforming then RegError.duplicateTag else RegError.invalidModule) := by
  unfold registerR
  cases hc : m.conforming <;> simp [hc, hdup]

/-- C10 witness: a conforming module re-registering the key "dup" fails
with DuplicateTag. -/
theorem claim_C10_witness :
    registerR c10St "dup" "x" c10Good = .error RegError.duplicateTag :=
  claim_C10_duplicate_register c10St "dup" "x" c10Good rfl

/-- Specs whose keys are not in the collected key set contribute nothing
to the walk. -/
theorem walkSpecs_append_no_match {R : Type} (self : DNode R) (keys : List String)
    (pre l : List (DSpec R)) (hpre : ∀ t ∈ pre, t.key ∉ keys) :
    walkSpecs self keys (pre ++ l) = walkSpecs self keys l := by
  induction pre with
  | nil => rfl
  | cons s pre ih =>
    have hs : s.key ∉ keys := hpre s (by simp)
    show walkSpecs self keys (s :: (pre ++ l)) = _
    simp only [walkSpecs]
    rw [if_neg hs]
    exact ih (fun t ht => hpre t (by simp [ht]))

/-- When no registered spec's key is in the collected key set the walk
produces nothing. -/
theorem walkSpecs_none_of_no_match {R : Type} (self : DNode R) (keys : List String)
    (specs : List (DSpec R)) (h : ∀ s ∈ specs, s.key ∉ keys) :
    walkSpecs self keys specs = none := by
  have h2 := walkSpecs_append_no_match self keys specs [] h
  rw [List.append_nil] at h2
  exact h2

/-- A matching spec whose re-extraction succeeds and whose hook is present
ends the walk with the hook's result. -/
theorem walkSpecs_cons_hit {R : Type} (self : DNode R) (keys : List String)
    (s : DSpec R) (rest : List (DSpec R)) (h2 : Head R) (r : R)
    (hmatch : s.key ∈ keys) (hre : specHead2 self s = ExtractRes.ok h2)
    (hhook : h2.hook s.hookName = some r) :
    walkSpecs self keys (s :: rest) = some (DResult.val r) := by
  simp only [walkSpecs, hre, hhook]
  rw [if_pos hmatch]

/-- With no extractable head, the wrapper calls straight through to the
method it closed over. -/
theorem patched_no_head {R : Type} (specs : List (DSpec R))
    (orig : DNode R → DResult R) (self : DNode R)
    (hex : extractHead self specs = none) :
    patched specs orig self = orig self := by
  unfold patched
  rw [hex]

/-- When the walk fires, the wrapper returns the walk's outcome. -/
theorem patched_eq_of_walk {R : Type} (specs : List (DSpec R))
    (orig : DNode R → DResult R) (self : DNode R) (head : Head R) (res : DResult R)
    (hex : extractHead self specs = some head)
    (hwalk : walkSpecs self (collectKeys head) specs = some res) :
    patched specs orig self = res := by
  unfold patched
  split
  · rename_i h
    rw [h] at hex
    exact Option.noConfusion hex
  · rename_i head2 h
    rw [h] at hex
    injection hex with hh
    subst hh
    split
    · rename_i r2 h2
      exact Option.some.inj (h2.symm.trans hwalk)
    · rename_i h2
      rw [h2] at hwalk
      exact Option.noConfusion hwalk

/-- When a head is extracted but the walk never fires, the wrapper returns
the node itself if the head's operator class exposes property keys, and the
closed-over method's result otherwise. -/
theorem patched_no_firing {R : Type} (specs : List (DSpec R))
    (orig : DNode R → DResult R) (self : DNode R) (head : Head R)
    (hex : extractHead self specs = some head)
    (hwalk : walkSpecs self (collectKeys head) specs = none) :
    patched specs orig self =
      (if head.funcClassKeys.isSome then DResult.val self.selfVal else orig self) := by
  unfold patched
  split
  · rename_i h
    rw [h] at hex
    exact Option.noConfusion hex
  · rename_i head2 h
    rw [h] at hex
    injection hex with hh
    subst hh
    split
    · rename_i r2 h2
      rw [h2] at hwalk
      exact Option.noConfusion hwalk
    · rfl

/-- Wrapping an already wrapped method with the same specs does not change
what any node evaluates to. -/
theorem patched_double {R : Type} (specs : List (DSpec R))
    (orig : DNode R → DResult R) (self : DNode R) :
    patched specs (patched specs orig) self = patched specs orig self := by
  cases hex : extractHead self specs with
  | none => rw [patched_no_head specs (patched specs orig) self hex]
  | some head =>
    cases hw : walkSpecs self (collectKeys head) specs with
    | some r =>
      rw [patched_eq_of_walk specs (patched specs orig) self head r hex hw,
          patched_eq_of_walk specs orig self head r hex hw]
    | none =>
      rw [patched_no_firing specs (patched specs orig) self head hex hw,
          patched_no_firing specs orig self head hex hw]
      cases hk : head.funcClassKeys.isSome <;> simp [hk]

/-- C1: when the dispatcher extracts a head carrying registered tags, the
first spec in registration order whose tag is in the collected key set and
whose hook is available wins: the dispatcher returns that hook's result,
for every choice of the specs registered after it, so later specs are
never consulted. -/
theorem claim_C1_first_match_dispatch {R : Type} (pre post : List (DSpec R))
    (s : DSpec R) (self : DNode R) (head h2 : Head R) (r : R)
    (hextract : extractHead self (pre ++ s :: post) = some head)
    (hpre : ∀ t ∈ pre, t.key ∉ collectKeys head)
    (hmatch : s.key ∈ collectKeys head)
    (hre : specHead2 self s = ExtractRes.ok h2)
    (hhook : h2.hook s.hookName = some r) :
    runMethod (Method.wrapper (pre ++ s :: post) Method.native) self = DResult.val r := by
  have hwalk : walkSpecs self (collectKeys head) (pre ++ s :: post) =
      some (DResult.val r) := by
    rw [walkSpecs_append_no_match self (collectKeys head) pre (s :: post) hpre]
    exact walkSpecs_cons_hit self (collectKeys head) s post h2 r hmatch hre hhook
  show patched (pre ++ s :: post) (runMethod Method.native) self = DResult.val r
  exact patched_eq_of_walk (pre ++ s :: post) (runMethod Method.native) self head
    (DResult.val r) hextract hwalk

/-- C1 witness: with a non-matching spec before it and an arbitrary spec
after it, the spec tagged "a" wins and its hook's result 42 is returned. -/
theorem claim_C1_witness :
    runMethod (Method.wrapper [c1SpecP, c1SpecA, c1SpecZ] Method.native) c1Self =
      DResult.val 42 :=
  claim_C1_first_match_dispatch [c1SpecP] [c1SpecZ] c1SpecA c1Self c1Head c1Head 42
    rfl
    (by
      intro t ht
      simp only [List.mem_singleton] at ht
      subst ht
      decide)
    (by decide) rfl rfl

/-- C5 (counterexample): the first spec's tag "a" is in the head's
collected key set but the head's class lacks the hook "ha"; instead of a
MissingHook error being surfaced, dispatch silently continues and returns
the second spec's hook result 7. -/
theorem claim_C5_counterexample :
    c5SpecA.key ∈ collectKeys c5Head ∧
    c5Head.hook c5SpecA.hookName = none ∧
    runMethod (Method.wrapper [c5SpecA, c5SpecB] Method.native) c5Self = DResult.val 7 ∧
    DResult.val 7 ≠ (DResult.raised : DResult Nat) :=
  ⟨by decide, rfl, rfl, fun h => DResult.noConfusion h⟩

/-- C5 (amended): when a spec's tag is in the collected key set but the
head's class lacks the required hook, the spec is silently skipped and the
walk continues with the specs registered after it; no error is raised for
the missing hook. -/
theorem claim_C5_missing_hook_skips {R : Type} (self : DNode R) (keys : List String)
    (s : DSpec R) (rest : List (DSpec R)) (h2 : Head R)
    (hmatch : s.key ∈ keys) (hok : specHead2 self s = ExtractRes.ok h2)
    (hnone : h2.hook s.hookName = none) :
    walkSpecs self keys (s :: rest) = walkSpecs self keys rest := by
  simp only [walkSpecs, hok, hnone]
  rw [if_pos hmatch]

/-- C5 witness: the concrete two-spec walk of the counterexample reduces
to the walk over the remaining spec. -/
theorem claim_C5_witness :
    walkSpecs c5Self (collectKeys c5Head) [c5SpecA, c5SpecB] =
      walkSpecs c5Self (collectKeys c5Head) [c5SpecB] :=
  claim_C5_missing_hook_skips c5Self (collectKeys c5Head) c5SpecA [c5SpecB] c5Head
    (by decide) rfl rfl

/-- C8 (counterexample): the extracted head carries tag machinery — an
instance-level property-key list — but its operator class exposes no
property_keys attribute, so with no matching spec the dispatcher falls
through to the native pre-patch method (value 2) instead of returning the
node itself unevaluated (value 1) as the claim requires. -/
theorem claim_C8_counterexample :
    c8Head.instKeys = some ["k"] ∧
    runMethod (Method.wrapper [c8Spec] Method.native) c8Self = DResult.val 2 ∧
    c8Self.selfVal = 1 ∧ c8Self.native = 2 :=
  ⟨rfl, rfl, rfl, rfl⟩

/-- C8 (amended): when no registered spec's tag is in the head's collected
key set, the dispatcher returns the node itself unevaluated exactly when
the head's operator class exposes a class-level property_keys attribute;
any other head — including one whose only tag machinery is instance-level
— gets the native pre-patch method's result. -/
theorem claim_C8_no_match_dispatch {R : Type} (specs : List (DSpec R)) (self : DNode R)
    (head : Head R)
    (hex : extractHead self specs = some head)
    (hnm : ∀ s ∈ specs, s.key ∉ collectKeys head) :
    runMethod (Method.wrapper specs Method.native) self =
      (if head.funcClassKeys.isSome then DResult.val self.selfVal
       else DResult.val self.native) := by
  have hwalk := walkSpecs_none_of_no_match self (collectKeys head) specs hnm
  show patched specs (runMethod Method.native) self = _
  rw [patched_no_firing specs (runMethod Method.native) self head hex hwalk]
  cases hk : head.funcClassKeys.isSome <;> simp [hk, runMethod]

/-- C8 witness: the counterexample node, driven through the amended
statement, lands on the native branch. -/
theorem claim_C8_witness :
    runMethod (Method.wrapper [c8Spec] Method.native) c8Self = DResult.val c8Self.native := by
  have h := claim_C8_no_match_dispatch [c8Spec] c8Self c8Head rfl
    (by
      intro t ht
      simp only [List.mem_singleton] at ht
      subst ht
      decide)
  simpa using h

/-- Lookups survive appending to an association list when the key is
already bound. -/
theorem alookup_append_of_isSome {α : Type} (os l : List (String × α)) (key : String)
    (h : (alookup os key).isSome = true) :
    alookup (os ++ l) key = alookup os key := by
  induction os with
  | nil => simp [alookup] at h
  | cons p os ih =>
    obtain ⟨k, v⟩ := p
    by_cases hk : key = k
    · show alookup ((k, v) :: (os ++ l)) key = alookup ((k, v) :: os) key
      simp [alookup, hk]
    · simp only [alookup, if_neg hk] at h
      show alookup ((k, v) :: (os ++ l)) key = alookup ((k, v) :: os) key
      simp only [alookup, if_neg hk]
      exact ih h

/-- Lookups fall through to the appended tail when the key is unbound in
the front list. -/
theorem alookup_append_of_none {α : Type} (os l : List (String × α)) (key : String)
    (h : alookup os key = none) :
    alookup (os ++ l) key = alookup l key := by
  induction os with
  | nil => rfl
  | cons p os ih =>
    obtain ⟨k, v⟩ := p
    by_cases hk : key = k
    · simp only [alookup, if_pos hk] at h
      exact Option.noConfusion h
    · simp only [alookup, if_neg hk] at h
      show alookup ((k, v) :: (os ++ l)) key = alookup l key
      simp only [alookup, if_neg hk]
      exact ih h

/-- Storing an original for one key never erases another key's stored
original. -/
theorem storeOriginal_isSome_preserved {R : Type} (os : List (String × Method R))
    (k key : String) (m : Method R)
    (h : (alookup os key).isSome = true) :
    (alookup (storeOriginal os k m) key).isSome = true := by
  unfold storeOriginal
  split
  · exact h
  · rw [alookup_append_of_isSome os [(k, m)] key h]
    exact h

/-- After storing an original for a key, the key has a stored original. -/
theorem storeOriginal_self_isSome {R : Type} (os : List (String × Method R))
    (key : String) (m : Method R) :
    (alookup (storeOriginal os key m) key).isSome = true := by
  unfold storeOriginal
  split
  · rename_i h
    exact h
  · rename_i h
    have hn : alookup os key = none := by
      cases hx : alookup os key with
      | none => rfl
      | some v => rw [hx] at h; simp at h
    rw [alookup_append_of_none os [(key, m)] key hn]
    simp [alookup]

/-- The original-storing fold preserves every already stored original. -/
theorem foldStore_isSome_preserved {R : Type} (specs : List (DSpec R)) (m : Method R)
    (os : List (String × Method R)) (key : String)
    (h : (alookup os key).isSome = true) :
    (alookup (specs.foldl (fun os s => storeOriginal os s.key m) os) key).isSome = true := by
  induction specs generalizing os with
  | nil => exact h
  | cons s specs ih =>
    exact ih _ (storeOriginal_isSome_preserved os s.key key m h)

/-- After the original-storing fold, every spec key has a stored
original. -/
theorem foldStore_mem_isSome {R : Type} (specs : List (DSpec R)) (m : Method R)
    (os : List (String × Method R)) :
    ∀ s ∈ specs,
      (alookup (specs.foldl (fun os s => storeOriginal os s.key m) os) s.key).isSome
        = true := by
  induction specs generalizing os with
  | nil =>
    intro s hs
    simp at hs
  | cons t specs ih =>
    intro s hs
    rcases List.mem_cons.mp hs with h1 | h2
    · subst h1
      exact foldStore_isSome_preserved specs m (storeOriginal os s.key m) s.key
        (storeOriginal_self_isSome os s.key m)
    · exact ih (storeOriginal os t.key m) s h2

/-- The original-storing fold is the identity once every spec key already
has a stored original. -/
theorem foldStore_id_of_all_isSome {R : Type} (specs : List (DSpec R)) (m : Method R)
    (os : List (String × Method R))
    (h : ∀ s ∈ specs, (alookup os s.key).isSome = true) :
    specs.foldl (fun os s => storeOriginal os s.key m) os = os := by
  induction specs generalizing os with
  | nil => rfl
  | cons t specs ih =>
    have ht : storeOriginal os t.key m = os := by
      unfold storeOriginal
      rw [if_pos (h t (by simp))]
    show specs.foldl (fun os s => storeOriginal os s.key m) (storeOriginal os t.key m) = os
    rw [ht]
    exact ih os (fun s hs => h s (by simp [hs]))

/-- C4 (counterexample): re-invoking the installer does not produce the
same combined dispatcher — it installs a wrapper whose closed-over original
is the previously installed wrapper, a stack of nested wrappers. -/
theorem claim_C4_counterexample :
    (applyAllPatches c4Specs (applyAllPatches c4Specs c4St0)).method ≠
      (applyAllPatches c4Specs c4St0).method := by
  intro h
  have h1 : (applyAllPatches c4Specs (applyAllPatches c4Specs c4St0)).method =
      Method.wrapper c4Specs (Method.wrapper c4Specs Method.native) := rfl
  have h2 : (applyAllPatches c4Specs c4St0).method =
      Method.wrapper c4Specs Method.native := rfl
  rw [h1, h2] at h
  injection h with h3 h4
  exact Method.noConfusion h4

/-- C4 (amended): a second installation with the same registered specs
wraps the first wrapper instead of reproducing it, but the result is
behaviorally idempotent: every node evaluates to the same result as after
the first installation, and the originals table — the native methods rules
fall back to — is unchanged. -/
theorem claim_C4_behavior_idempotent {R : Type} (specs : List (DSpec R))
    (st : PatchState R) :
    (∀ self, runMethod (applyAllPatches specs (applyAllPatches specs st)).method self =
        runMethod (applyAllPatches specs st).method self) ∧
    (applyAllPatches specs (applyAllPatches specs st)).originals =
      (applyAllPatches specs st).originals := by
  constructor
  · intro self
    exact patched_double specs (runMethod st.method) self
  · show specs.foldl (fun os s => storeOriginal os s.key (applyAllPatches specs st).method)
        (specs.foldl (fun os s => storeOriginal os s.key st.method) st.originals) =
      specs.foldl (fun os s => storeOriginal os s.key st.method) st.originals
    exact foldStore_id_of_all_isSome specs _ _
      (foldStore_mem_isSome specs st.method st.originals)

end Symantex
